import Mathlib

/-!
Verification of the color-distribution core of `hyfetch/presets.py`.

The file embeds the data model and operations of `ColorProfile`
(`with_weights`, `with_length`, `color_text`, `__init__`) and the
`PRESETS` table, and proves the specified properties about them.
-/

/-- An RGB color value: three 8-bit components (`hyfetch/color_util.py`'s `RGB`). -/
structure RGB where
  r : Nat
  g : Nat
  b : Nat
deriving DecidableEq, Repr

/-- Errors that can be raised during palette construction:
`indexError` models Python's `IndexError` (raised by `colors[0]` on an empty
list in `ColorProfile.__init__`), `colorParseError` the spec's `ColorParseError`. -/
inductive PaletteError where
  | indexError
  | colorParseError
deriving DecidableEq, Repr

/-- The value of a single hexadecimal digit, case-insensitive; `none` for a
non-hex-digit character. -/
def hexDigitVal (c : Char) : Option Nat :=
  if '0' ≤ c ∧ c ≤ '9' then some (c.toNat - '0'.toNat)
  else if 'a' ≤ c ∧ c ≤ 'f' then some (c.toNat - 'a'.toNat + 10)
  else if 'A' ≤ c ∧ c ≤ 'F' then some (c.toNat - 'A'.toNat + 10)
  else none

/-- Modelled from the spec: `RGB.from_hex` lives in `hyfetch/color_util.py`,
which is not part of the provided sources.  Spec §4.1: accept a string of the
form `#RRGGBB` (hash sign optional, hex digits case-insensitive); fail with a
`ColorParseError` if, after stripping an optional leading `#`, the string is
not exactly 6 hexadecimal digits. -/
def RGB.from_hex (hex : String) : Except PaletteError RGB :=
  let t := match hex.data with
    | '#' :: rest => rest
    | l => l
  match t with
  | [c1, c2, c3, c4, c5, c6] =>
    match hexDigitVal c1, hexDigitVal c2, hexDigitVal c3,
          hexDigitVal c4, hexDigitVal c5, hexDigitVal c6 with
    | some v1, some v2, some v3, some v4, some v5, some v6 =>
        .ok ⟨16 * v1 + v2, 16 * v3 + v4, 16 * v5 + v6⟩
    | _, _, _, _, _, _ => .error .colorParseError
  | _ => .error .colorParseError

/-- Modelled from the spec: `RGB.to_ansi_rgb` lives in `hyfetch/color_util.py`,
which is not part of the provided sources.  Spec §4.1: the ANSI 24-bit color
escape `ESC[38;2;R;G;Bm` for foreground or `ESC[48;2;R;G;Bm` for background,
with the components printed in decimal. -/
def RGB.to_ansi_rgb (c : RGB) (foreground : Bool) : String :=
  "\x1b[" ++ (if foreground then "38" else "48") ++ ";2;" ++
    toString c.r ++ ";" ++ toString c.g ++ ";" ++ toString c.b ++ "m"

/-- The ANSI reset sequence `'\033[0m'` appearing literally in `color_text`. -/
def resetSeq : String := "\x1b[0m"

/-- `l.set`-with-increment: `incAt w j` is Python's `weights[j] += 1`.
(Out-of-range indices leave the list unchanged; every use in this file is
in range, matching Python, where an out-of-range index would raise.) -/
def incAt : List Nat → Nat → List Nat
  | [], _ => []
  | x :: xs, 0 => (x + 1) :: xs
  | x :: xs, j + 1 => x :: incAt xs j

/-- The border-growth `while` loop of `ColorProfile.with_length`:

    border_i = 0
    while extras > 0:
        extras -= 2
        weights[border_i] += 1
        weights[-(border_i + 1)] += 1
        border_i += 1

`extras` is a nonnegative integer at entry (`length % preset_len`, possibly
minus one), so the loop is given as recursion on the natural number `extras`;
from `extras = 1` Python performs one final iteration ending with
`extras = -1`, which the middle (`Int`) component of the result records; from
even `extras` the loop ends with `extras = 0` exactly.  The first component
is the final `weights`; the last component is ghost instrumentation listing
each `border_i` value for which the loop body ran (the touched left border
indices), used only to state properties of the loop. -/
def borderLoop : Nat → Nat → List Nat → (List Nat × Int) × List Nat
  | 0, _, weights => ((weights, 0), [])
  | 1, border_i, weights =>
      ((incAt (incAt weights border_i) (weights.length - (border_i + 1)), -1), [border_i])
  | extras + 2, border_i, weights =>
      let weights' := incAt (incAt weights border_i) (weights.length - (border_i + 1))
      let r := borderLoop extras (border_i + 1) weights'
      (r.1, border_i :: r.2)

/-- `ColorProfile`: an ordered palette of colors.  `raw` keeps the hex strings
when the profile was built from strings (Python leaves it unset otherwise;
here it defaults to `[]`). -/
structure ColorProfile where
  raw : List String := []
  colors : List RGB
deriving DecidableEq, Repr

/-- The list comprehension `[RGB.from_hex(c) for c in colors]`: parse each hex
string left to right, propagating the first parse failure. -/
def fromHexList : List String → Except PaletteError (List RGB)
  | [] => .ok []
  | c :: rest =>
    match RGB.from_hex c with
    | .error e => .error e
    | .ok r =>
      match fromHexList rest with
      | .error e => .error e
      | .ok rs => .ok (r :: rs)

/-- `ColorProfile.__init__(colors)`, where `colors` is either a list of hex
strings (left injection) or a list of `RGB` values (right injection):

    if isinstance(colors[0], str):
        self.raw = colors
        self.colors = [RGB.from_hex(c) for c in colors]
    else:
        self.colors = colors

On an empty list, `colors[0]` raises `IndexError` before anything else runs. -/
def ColorProfile.init : List String ⊕ List RGB → Except PaletteError ColorProfile
  | .inl [] => .error .indexError
  | .inr [] => .error .indexError
  | .inl (c :: rest) =>
    match fromHexList (c :: rest) with
    | .error e => .error e
    | .ok colors => .ok { raw := c :: rest, colors := colors }
  | .inr (c :: rest) => .ok { colors := c :: rest }

/-- `ColorProfile.with_weights`:

    return [c for i, w in enumerate(weights) for c in [self.colors[i]] * w]
-/
def ColorProfile.with_weights (p : ColorProfile) (weights : List Nat) : List RGB :=
  (weights.enum.map (fun iw => List.replicate iw.2 (p.colors.getD iw.1 ⟨0, 0, 0⟩))).flatten

/-- The weight computation of `ColorProfile.with_length`, up to and including
the border-growth loop (the loop's full result, weights plus final `extras`
plus the ghost list of touched border indices):

    preset_len = len(self.colors)
    center_i = preset_len // 2
    repeats = length // preset_len
    weights = [repeats] * preset_len
    extras = length % preset_len
    if extras % 2 == 1:
        extras -= 1
        weights[center_i] += 1
    border_i = 0
    while extras > 0: ...  (see borderLoop)
-/
def ColorProfile.lengthLoop (p : ColorProfile) (length : Nat) : (List Nat × Int) × List Nat :=
  let preset_len := p.colors.length
  let center_i := preset_len / 2
  let repeats := length / preset_len
  let weights := List.replicate preset_len repeats
  let extras := length % preset_len
  let weights' := if extras % 2 = 1 then incAt weights center_i else weights
  let extras' := if extras % 2 = 1 then extras - 1 else extras
  borderLoop extras' 0 weights'

/-- The weight vector computed inside `ColorProfile.with_length`. -/
def ColorProfile.lengthWeights (p : ColorProfile) (length : Nat) : List Nat :=
  (p.lengthLoop length).1.1

/-- `ColorProfile.with_length`: compute the weights, then
`return self.with_weights(weights)`. -/
def ColorProfile.with_length (p : ColorProfile) (length : Nat) : List RGB :=
  p.with_weights (p.lengthWeights length)

/-- `ColorProfile.color_text`:

    colors = self.with_length(len(txt))
    result = ''
    for i, t in enumerate(txt):
        if space_only and t != ' ':
            if i > 0 and txt[i - 1] == ' ':
                result += '\033[0m'
            result += t
        else:
            result += colors[i].to_ansi_rgb(foreground) + t
    result += '\033[0m'
    return result
-/
def ColorProfile.color_text (p : ColorProfile) (txt : String)
    (foreground : Bool := true) (space_only : Bool := false) : String :=
  let colors := p.with_length txt.length
  let chars := txt.data
  (chars.enum.foldl (fun result it =>
    if space_only = true ∧ it.2 ≠ ' ' then
      result ++ (if 0 < it.1 ∧ chars.getD (it.1 - 1) ' ' = ' ' then resetSeq else "") ++
        it.2.toString
    else
      result ++ (colors.getD it.1 ⟨0, 0, 0⟩).to_ansi_rgb foreground ++ it.2.toString) "")
    ++ resetSeq

/-- A two-color test palette. -/
def sampleProfile2 : ColorProfile := { colors := [⟨0, 0, 0⟩, ⟨255, 255, 255⟩] }

/-- A three-color test palette. -/
def sampleProfile3 : ColorProfile :=
  { colors := [⟨230, 30, 30⟩, ⟨255, 255, 255⟩, ⟨30, 30, 230⟩] }

/-! ### Basic lemmas about `incAt` -/

theorem incAt_length : ∀ (w : List Nat) (j : Nat), (incAt w j).length = w.length
  | [], _ => rfl
  | _ :: _, 0 => rfl
  | x :: xs, j + 1 => by simp [incAt, incAt_length xs j]

theorem incAt_getD : ∀ (w : List Nat) (j i : Nat),
    (incAt w j).getD i 0 = w.getD i 0 + if i = j ∧ j < w.length then 1 else 0
  | [], j, i => by simp [incAt]
  | x :: xs, 0, 0 => by simp [incAt]
  | x :: xs, 0, i + 1 => by simp [incAt]
  | x :: xs, j + 1, 0 => by simp [incAt]
  | x :: xs, j + 1, i + 1 => by
      have ih := incAt_getD xs j i
      simp only [incAt, List.getD_cons_succ, ih, List.length_cons]
      split_ifs <;> omega

theorem incAt_sum : ∀ (w : List Nat) (j : Nat),
    (incAt w j).sum = w.sum + if j < w.length then 1 else 0
  | [], j => by simp [incAt]
  | x :: xs, 0 => by simp [incAt]; omega
  | x :: xs, j + 1 => by
      have ih := incAt_sum xs j
      simp [incAt, ih, Nat.succ_lt_succ_iff]
      split_ifs <;> omega

/-! ### Lemmas about the border-growth loop -/

theorem borderLoop_weights_length : ∀ (e b : Nat) (w : List Nat),
    ((borderLoop e b w).1.1).length = w.length
  | 0, _, _ => rfl
  | 1, b, w => by simp [borderLoop, incAt_length]
  | e + 2, b, w => by
      have ih := borderLoop_weights_length e (b + 1)
        (incAt (incAt w b) (w.length - (b + 1)))
      simp [borderLoop, ih, incAt_length]

theorem borderLoop_extras_even : ∀ (k b : Nat) (w : List Nat),
    (borderLoop (2 * k) b w).1.2 = 0
  | 0, _, _ => rfl
  | k + 1, b, w => by
      have ih := borderLoop_extras_even k (b + 1)
        (incAt (incAt w b) (w.length - (b + 1)))
      have h2 : 2 * (k + 1) = 2 * k + 2 := by ring
      rw [h2]
      simpa [borderLoop] using ih

theorem borderLoop_touched_mem : ∀ (k b : Nat) (w : List Nat) (j : Nat),
    j ∈ (borderLoop (2 * k) b w).2 → b ≤ j ∧ j < b + k
  | 0, b, w, j => by simp [borderLoop]
  | k + 1, b, w, j => by
      have ih := borderLoop_touched_mem k (b + 1)
        (incAt (incAt w b) (w.length - (b + 1))) j
      have h2 : 2 * (k + 1) = 2 * k + 2 := by ring
      rw [h2]
      intro hm
      simp [borderLoop] at hm
      rcases hm with h | h
      · omega
      · have := ih h
        omega

theorem borderLoop_sum : ∀ (k b : Nat) (w : List Nat), b + k ≤ w.length →
    ((borderLoop (2 * k) b w).1.1).sum = w.sum + 2 * k
  | 0, _, _, _ => by simp [borderLoop]
  | k + 1, b, w, hbk => by
      have hlen : (incAt (incAt w b) (w.length - (b + 1))).length = w.length := by
        simp [incAt_length]
      have ih := borderLoop_sum k (b + 1) (incAt (incAt w b) (w.length - (b + 1)))
        (by rw [hlen]; omega)
      have h2 : 2 * (k + 1) = 2 * k + 2 := by ring
      rw [h2]
      have hs1 := incAt_sum w b
      have hs2 := incAt_sum (incAt w b) (w.length - (b + 1))
      rw [incAt_length] at hs2
      simp only [borderLoop]
      rw [ih, hs2, hs1]
      split_ifs <;> omega

theorem borderLoop_getD : ∀ (k b : Nat) (w : List Nat), b + k ≤ w.length →
    ∀ i, i < w.length →
    ((borderLoop (2 * k) b w).1.1).getD i 0 =
      w.getD i 0 + (if b ≤ i ∧ i < b + k then 1 else 0) +
        (if b ≤ w.length - 1 - i ∧ w.length - 1 - i < b + k then 1 else 0)
  | 0, b, w, _, i, _ => by
      simp only [Nat.mul_zero, borderLoop]
      split_ifs <;> omega
  | k + 1, b, w, hbk, i, hi => by
      have hlen : (incAt (incAt w b) (w.length - (b + 1))).length = w.length := by
        simp [incAt_length]
      have ih := borderLoop_getD k (b + 1) (incAt (incAt w b) (w.length - (b + 1)))
        (by rw [hlen]; omega) i (by rw [hlen]; omega)
      rw [hlen] at ih
      have h2 : 2 * (k + 1) = 2 * k + 2 := by ring
      rw [h2]
      have hg1 := incAt_getD w b i
      have hg2 := incAt_getD (incAt w b) (w.length - (b + 1)) i
      rw [incAt_length] at hg2
      simp only [borderLoop]
      rw [ih, hg2, hg1]
      split_ifs <;> omega

theorem borderLoop_eq_foldl : ∀ (k b : Nat) (w : List Nat) (N : Nat), w.length = N →
    (borderLoop (2 * k) b w).1.1 =
      (List.range' b k).foldl (fun wacc i => incAt (incAt wacc i) (N - 1 - i)) w
  | 0, b, w, N, _ => by simp [borderLoop]
  | k + 1, b, w, N, hN => by
      have hsub : w.length - (b + 1) = N - 1 - b := by omega
      have hlen : (incAt (incAt w b) (w.length - (b + 1))).length = N := by
        simp [incAt_length, hN]
      have ih := borderLoop_eq_foldl k (b + 1)
        (incAt (incAt w b) (w.length - (b + 1))) N hlen
      rw [hsub] at ih
      have h2 : 2 * (k + 1) = 2 * k + 2 := by ring
      rw [h2]
      simp [borderLoop, List.range'_succ, hsub, ih]

theorem replicate_getD (n x i : Nat) :
    (List.replicate n x).getD i 0 = if i < n then x else 0 := by
  induction n generalizing i with
  | zero => simp
  | succ n ih =>
      cases i with
      | zero => simp [List.replicate_succ]
      | succ i =>
          simp only [List.replicate_succ, List.getD_cons_succ, ih]
          split_ifs <;> omega

/-! ### The weight distribution of `with_length` in closed form -/

theorem lengthLoop_eq (p : ColorProfile) (L : Nat) :
    p.lengthLoop L =
      borderLoop (L % p.colors.length - L % p.colors.length % 2) 0
        (if L % p.colors.length % 2 = 1
          then incAt (List.replicate p.colors.length (L / p.colors.length))
            (p.colors.length / 2)
          else List.replicate p.colors.length (L / p.colors.length)) := by
  simp only [ColorProfile.lengthLoop]
  have h1 : (if L % p.colors.length % 2 = 1
        then L % p.colors.length - 1 else L % p.colors.length)
      = L % p.colors.length - L % p.colors.length % 2 := by
    split_ifs with h <;> omega
  rw [h1]

theorem distWeights_getD (N d m : Nat) (hN : 1 ≤ N) (hm : m < N)
    (i : Nat) (hi : i < N) :
    ((borderLoop (m - m % 2) 0
        (if m % 2 = 1 then incAt (List.replicate N d) (N / 2)
          else List.replicate N d)).1.1).getD i 0
      = d + (if m % 2 = 1 ∧ i = N / 2 then 1 else 0)
          + (if i < (m - m % 2) / 2 then 1 else 0)
          + (if N - 1 - i < (m - m % 2) / 2 then 1 else 0) := by
  set e := m - m % 2 with he
  set k := e / 2 with hk
  have hek : e = 2 * k := by omega
  have hw : (if m % 2 = 1 then incAt (List.replicate N d) (N / 2)
      else List.replicate N d).length = N := by
    split_ifs <;> simp [incAt_length]
  rw [hek]
  rw [borderLoop_getD k 0 _ (by rw [hw]; omega) i (by rw [hw]; omega)]
  rw [hw]
  by_cases hpar : m % 2 = 1
  · rw [if_pos hpar, incAt_getD, List.length_replicate, replicate_getD]
    split_ifs <;> omega
  · rw [if_neg hpar, replicate_getD]
    split_ifs <;> omega

theorem distWeights_sum (N d m : Nat) (hN : 1 ≤ N) (hm : m < N) :
    ((borderLoop (m - m % 2) 0
        (if m % 2 = 1 then incAt (List.replicate N d) (N / 2)
          else List.replicate N d)).1.1).sum = N * d + m := by
  set e := m - m % 2 with he
  set k := e / 2 with hk
  have hek : e = 2 * k := by omega
  have hw : (if m % 2 = 1 then incAt (List.replicate N d) (N / 2)
      else List.replicate N d).length = N := by
    split_ifs <;> simp [incAt_length]
  rw [hek, borderLoop_sum k 0 _ (by rw [hw]; omega)]
  by_cases hpar : m % 2 = 1
  · rw [if_pos hpar, incAt_sum, List.length_replicate, List.sum_replicate, smul_eq_mul]
    split_ifs <;> omega
  · rw [if_neg hpar, List.sum_replicate, smul_eq_mul]
    omega

theorem lengthWeights_getD (p : ColorProfile) (L : Nat) (hN : 1 ≤ p.colors.length)
    (i : Nat) (hi : i < p.colors.length) :
    (p.lengthWeights L).getD i 0 =
      L / p.colors.length
      + (if L % p.colors.length % 2 = 1 ∧ i = p.colors.length / 2 then 1 else 0)
      + (if i < (L % p.colors.length - L % p.colors.length % 2) / 2 then 1 else 0)
      + (if p.colors.length - 1 - i
            < (L % p.colors.length - L % p.colors.length % 2) / 2 then 1 else 0) := by
  unfold ColorProfile.lengthWeights
  rw [lengthLoop_eq]
  exact distWeights_getD _ _ _ hN (Nat.mod_lt _ hN) i hi

theorem lengthWeights_sum (p : ColorProfile) (L : Nat) (hN : 1 ≤ p.colors.length) :
    (p.lengthWeights L).sum = L := by
  unfold ColorProfile.lengthWeights
  rw [lengthLoop_eq, distWeights_sum _ _ _ hN (Nat.mod_lt _ hN)]
  exact Nat.div_add_mod L p.colors.length

theorem lengthWeights_length (p : ColorProfile) (L : Nat) :
    (p.lengthWeights L).length = p.colors.length := by
  unfold ColorProfile.lengthWeights ColorProfile.lengthLoop
  rw [borderLoop_weights_length]
  split_ifs <;> simp [incAt_length]

/-! ### `with_weights` (the spec's `expand`) -/

theorem enumFrom_weights_length {α : Type} (c : Nat → α) :
    ∀ (n : Nat) (w : List Nat),
    ((List.enumFrom n w).map (fun iw => List.replicate iw.2 (c iw.1))).flatten.length = w.sum
  | _, [] => rfl
  | n, x :: xs => by
      have ih := enumFrom_weights_length c (n + 1) xs
      simp only [List.enumFrom, List.map_cons, List.flatten_cons, List.length_append,
        List.length_replicate, ih, List.sum_cons]

theorem with_weights_length (p : ColorProfile) (w : List Nat) :
    (p.with_weights w).length = w.sum := by
  unfold ColorProfile.with_weights
  exact enumFrom_weights_length (fun i => p.colors.getD i ⟨0, 0, 0⟩) 0 w

theorem enumFrom_map_getD {α β : Type} (d : β) (g : Nat → β → α) :
    ∀ (n : Nat) (w : List β),
    (List.enumFrom n w).map (fun iw => g iw.1 iw.2) =
      (List.range w.length).map (fun i => g (n + i) (w.getD i d))
  | _, [] => rfl
  | n, x :: xs => by
      have ih := enumFrom_map_getD d g (n + 1) xs
      simp only [List.enumFrom, List.map_cons, List.length_cons,
        List.range_succ_eq_map, List.map_map, ih, Function.comp,
        List.getD_cons_succ, List.getD_cons_zero, Nat.add_zero]
      refine congrArg₂ List.cons rfl ?_
      apply List.map_congr_left
      intro i _
      simp only [Function.comp_apply, Nat.succ_eq_add_one, List.getD_cons_succ]
      have h : n + 1 + i = n + (i + 1) := by omega
      rw [h]

/-! ### Spec-side descriptions of the distribution algorithm -/

/-- The `distribute` weight computation as the spec words it: set every weight
to `length // N`; if `length mod N` is odd, add 1 to the weight at index
`N // 2`; then, with the remaining even remainder `e`, add 1 to the weights at
indices `i` and `N - 1 - i` for each `i` from `0` up to `e / 2 - 1`. -/
def distributeSpecWeights (N length : Nat) : List Nat :=
  let repeats := length / N
  let w0 := List.replicate N repeats
  let extras := length % N
  let w1 := if extras % 2 = 1 then incAt w0 (N / 2) else w0
  let e := if extras % 2 = 1 then extras - 1 else extras
  (List.range (e / 2)).foldl (fun w i => incAt (incAt w i) (N - 1 - i)) w1

/-- The spec's `expand`: `colors[i]` repeated `weights[i]` times, concatenated
in palette order. -/
def expandSpec (colors : List RGB) (weights : List Nat) : List RGB :=
  ((List.range weights.length).map
    (fun i => List.replicate (weights.getD i 0) (colors.getD i ⟨0, 0, 0⟩))).flatten

theorem with_weights_eq_expandSpec (p : ColorProfile) (w : List Nat) :
    p.with_weights w = expandSpec p.colors w := by
  unfold ColorProfile.with_weights expandSpec
  have h := enumFrom_map_getD (0 : Nat)
    (fun i v => List.replicate v (p.colors.getD i ⟨0, 0, 0⟩)) 0 w
  simp only [Nat.zero_add] at h
  rw [show w.enum = List.enumFrom 0 w from rfl, h]

theorem lengthWeights_eq_spec (p : ColorProfile) (L : Nat) :
    p.lengthWeights L = distributeSpecWeights p.colors.length L := by
  unfold ColorProfile.lengthWeights distributeSpecWeights
  simp only [ColorProfile.lengthLoop]
  by_cases hpar : L % p.colors.length % 2 = 1
  · simp only [if_pos hpar]
    have hlen : (incAt (List.replicate p.colors.length (L / p.colors.length))
        (p.colors.length / 2)).length = p.colors.length := by
      simp [incAt_length]
    have h2 : L % p.colors.length - 1 = 2 * ((L % p.colors.length - 1) / 2) := by
      omega
    rw [h2, borderLoop_eq_foldl _ 0 _ p.colors.length hlen, List.range_eq_range']
    have h3 : 2 * ((L % p.colors.length - 1) / 2) / 2
        = (L % p.colors.length - 1) / 2 := by omega
    rw [h3]
  · simp only [if_neg hpar]
    have hlen : (List.replicate p.colors.length (L / p.colors.length)).length
        = p.colors.length := by simp
    have h2 : L % p.colors.length = 2 * (L % p.colors.length / 2) := by omega
    rw [h2, borderLoop_eq_foldl _ 0 _ p.colors.length hlen, List.range_eq_range']
    have h3 : 2 * (L % p.colors.length / 2) / 2 = L % p.colors.length / 2 := by
      omega
    rw [h3]

/-! ### String lemmas for the colorizer -/

theorem string_foldl_shift : ∀ (l : List String) (s : String),
    l.foldl (fun r x => r ++ x) s = s ++ l.foldl (fun r x => r ++ x) ""
  | [], s => by simp
  | x :: xs, s => by
      have ih1 := string_foldl_shift xs (s ++ x)
      have ih2 := string_foldl_shift xs ("" ++ x)
      simp only [List.foldl_cons, ih1, ih2]
      simp [String.append_assoc]

theorem join_cons (a : String) (l : List String) :
    String.join (a :: l) = a ++ String.join l := by
  simp only [String.join, List.foldl_cons]
  rw [string_foldl_shift]
  simp

theorem foldl_append_join {α : Type} (f : α → String) :
    ∀ (l : List α) (s : String),
    l.foldl (fun r x => r ++ f x) s = s ++ String.join (l.map f)
  | [], s => by simp [String.join]
  | x :: xs, s => by
      have ih := foldl_append_join f xs (s ++ f x)
      simp only [List.foldl_cons, List.map_cons, ih, join_cons, String.append_assoc]

/-! ### The colorizer -/

/-- The text colorizer as the spec §4.3 describes it: pair each index `i` with
`colorSeq[i] = distribute(len(text))[i]`; a non-space character in space-only
mode is emitted uncolored, preceded by the reset sequence exactly when `i > 0`
and the previous character is a space; any other character is emitted prefixed
by its color's escape sequence; a final reset sequence is appended. -/
def colorizeSpec (p : ColorProfile) (txt : String)
    (foreground : Bool) (space_only : Bool) : String :=
  let colorSeq := p.with_length txt.length
  let cs := txt.data
  String.join ((List.range cs.length).map (fun i =>
    if space_only = true ∧ cs.getD i ' ' ≠ ' ' then
      (if 0 < i ∧ cs.getD (i - 1) ' ' = ' ' then resetSeq else "") ++
        (cs.getD i ' ').toString
    else
      (colorSeq.getD i ⟨0, 0, 0⟩).to_ansi_rgb foreground ++ (cs.getD i ' ').toString))
    ++ resetSeq

theorem color_text_pieces (p : ColorProfile) (txt : String) (fg so : Bool) :
    p.color_text txt fg so =
      String.join ((List.range txt.data.length).map (fun i =>
        if so = true ∧ txt.data.getD i ' ' ≠ ' ' then
          (if 0 < i ∧ txt.data.getD (i - 1) ' ' = ' ' then resetSeq else "") ++
            (txt.data.getD i ' ').toString
        else
          ((p.with_length txt.length).getD i ⟨0, 0, 0⟩).to_ansi_rgb fg ++
            (txt.data.getD i ' ').toString)) ++ resetSeq := by
  simp only [ColorProfile.color_text]
  have hbody : (fun (result : String) (it : Nat × Char) =>
      if so = true ∧ it.2 ≠ ' ' then
        result ++ (if 0 < it.1 ∧ txt.data.getD (it.1 - 1) ' ' = ' ' then resetSeq else "") ++
          it.2.toString
      else
        result ++ ((p.with_length txt.length).getD it.1 ⟨0, 0, 0⟩).to_ansi_rgb fg ++
          it.2.toString)
    = (fun (result : String) (it : Nat × Char) => result ++
        (if so = true ∧ it.2 ≠ ' ' then
          (if 0 < it.1 ∧ txt.data.getD (it.1 - 1) ' ' = ' ' then resetSeq else "") ++
            it.2.toString
        else
          ((p.with_length txt.length).getD it.1 ⟨0, 0, 0⟩).to_ansi_rgb fg ++
            it.2.toString)) := by
    funext result it
    split_ifs <;> rw [String.append_assoc]
  rw [hbody, foldl_append_join (fun (it : Nat × Char) =>
    if so = true ∧ it.2 ≠ ' ' then
      (if 0 < it.1 ∧ txt.data.getD (it.1 - 1) ' ' = ' ' then resetSeq else "") ++
        it.2.toString
    else
      ((p.with_length txt.length).getD it.1 ⟨0, 0, 0⟩).to_ansi_rgb fg ++
        it.2.toString) txt.data.enum ""]
  have h := enumFrom_map_getD ' '
    (fun i t =>
      if so = true ∧ t ≠ ' ' then
        (if 0 < i ∧ txt.data.getD (i - 1) ' ' = ' ' then resetSeq else "") ++ t.toString
      else
        ((p.with_length txt.length).getD i ⟨0, 0, 0⟩).to_ansi_rgb fg ++ t.toString)
    0 txt.data
  simp only [Nat.zero_add] at h
  rw [show txt.data.enum = List.enumFrom 0 txt.data from rfl, h]
  simp

/-! ### The `PRESETS` table -/

/-- The entries of the `PRESETS` dict literal, in source order, each palette
given by its raw hex strings (each `ColorProfile([...])` value is built from
exactly these strings).  The same name may occur twice, exactly as in the
source literal. -/
def PRESETS_entries : List (String × List String) := [
  ("rainbow", ["#E50000", "#FF8D00", "#FFEE00", "#028121", "#004CFF", "#770088"]),
  ("transgender", ["#55CDFD", "#F6AAB7", "#FFFFFF", "#F6AAB7", "#55CDFD"]),
  ("nonbinary", ["#FCF431", "#FCFCFC", "#9D59D2", "#282828"]),
  ("agender", ["#000000", "#BABABA", "#FFFFFF", "#BAF484", "#FFFFFF", "#BABABA", "#000000"]),
  ("queer", ["#B57FDD", "#FFFFFF", "#49821E"]),
  ("genderfluid", ["#FE76A2", "#FFFFFF", "#BF12D7", "#000000", "#303CBE"]),
  ("bisexual", ["#D60270", "#9B4F96", "#0038A8"]),
  ("pansexual", ["#FF1C8D", "#FFD700", "#1AB3FF"]),
  ("lesbian", ["#D62800", "#FF9B56", "#FFFFFF", "#D462A6", "#A40062"]),
  ("asexual", ["#000000", "#A4A4A4", "#FFFFFF", "#810081"]),
  ("aromantic", ["#3BA740", "#A8D47A", "#FFFFFF", "#ABABAB", "#000000"]),
  ("autosexual", ["#99D9EA", "#7F7F7F"]),
  ("intergender", ["#900DC2", "#900DC2", "#FFE54F", "#900DC2", "#900DC2"]),
  ("greygender", ["#B3B3B3", "#B3B3B3", "#FFFFFF", "#062383", "#062383", "#FFFFFF", "#535353", "#535353"]),
  ("akiosexual", ["#F9485E", "#FEA06A", "#FEF44C", "#FFFFFF", "#000000"]),
  ("transmasculine", ["#FF8ABD", "#CDF5FE", "#9AEBFF", "#74DFFF", "#9AEBFF", "#CDF5FE", "#FF8ABD"]),
  ("demifaun", ["#7F7F7F", "#7F7F7F", "#C6C6C6", "#C6C6C6", "#FCC688", "#FFF19C", "#FFFFFF", "#8DE0D5", "#9682EC", "#C6C6C6", "#C6C6C6", "#7F7F7F", "#7F7F7F"]),
  ("neutrois", ["#FFFFFF", "#1F9F00", "#000000"]),
  ("biromantic alt 2", ["#8869A5", "#D8A7D8", "#FFFFFF", "#FDB18D", "#151638"]),
  ("biromantic alt 2", ["#740194", "#AEB1AA", "#FFFFFF", "#AEB1AA", "#740194"]),
  ("autoromantic", ["#99D9EA", "#99D9EA", "#99D9EA", "#99D9EA", "#99D9EA", "#000000", "#3DA542", "#3DA542", "#000000", "#7F7F7F", "#7F7F7F", "#7F7F7F", "#7F7F7F", "#7F7F7F"]),
  ("boyflux alt 2", ["#E48AE4", "#9A81B4", "#55BFAB", "#FFFFFF", "#A8A8A8", "#81D5EF", "#81D5EF", "#81D5EF", "#81D5EF", "#81D5EF", "#69ABE5", "#69ABE5", "#69ABE5", "#69ABE5", "#69ABE5", "#69ABE5", "#69ABE5", "#69ABE5", "#69ABE5", "#69ABE5", "#5276D4", "#5276D4", "#5276D4", "#5276D4", "#5276D4", "#5276D4", "#5276D4", "#5276D4", "#5276D4", "#5276D4"]),
  ("neopronoun", ["#BCEC64", "#BCEC64", "#BCEC64", "#FFFFFF", "#FFFFFF", "#38077A", "#38077A", "#38077A"]),
  ("gynesexual", ["#F5A9B8", "#8F3F2B", "#5B943A"]),
  ("spectrasexual", ["#F079FF", "#8879FF", "#FFFFFF", "#79FFF0", "#79B5FF"]),
  ("black transgender", ["#5BCEFA", "#F5A9B8", "#000000", "#F5A9B8", "#5BCEFA"]),
  ("aftgender", ["#6B30D5", "#6B30D5", "#6B30D5", "#6B30D5", "#FEEDAE", "#FDACE5"]),
  ("paragirl", ["#9D9D9D", "#9D9D9D", "#9D9D9D", "#FFFFFF", "#FFFFFF", "#FFFFFF", "#FDCDBA", "#FDCDBA", "#FDCDBA", "#FE8C5d", "#FE8C5d", "#FE8C5d", "#F42D45", "#FE8C5d", "#FE8C5d", "#FE8C5d", "#FDCDBA", "#FDCDBA", "#FDCDBA", "#FFFFFF", "#FFFFFF", "#FFFFFF", "#9D9D9D", "#9D9D9D", "#9D9D9D"]),
  ("demiandrogyne", ["#7E7E7E", "#C5C5C5", "#F92E8E", "#5721AB", "#09C3ED", "#C5C5C5", "#7E7E7E"]),
  ("gay male", ["#078D70", "#26CEAA", "#98E8C1", "#FFFFFF", "#7BADE2", "#5049CC", "#3D1A78"]),
  ("bicurious", ["#F347F8", "#F347F8", "#F787FA", "#FDC6FD", "#FFFFFF", "#FFFFFF", "#C6E0FD", "#76B5fA", "#2D8CF7", "#2D8CF7"]),
  ("paraboy", ["#9D9D9D", "#9D9D9D", "#9D9D9D", "#FFFFFF", "#FFFFFF", "#FFFFFF", "#E9CFEE", "#E9CFEE", "#E9CFEE", "#C78BD8", "#C78BD8", "#C78BD8", "#1104AF", "#C78BD8", "#C78BD8", "#C78BD8", "#E9CFEE", "#E9CFEE", "#E9CFEE", "#FFFFFF", "#FFFFFF", "#FFFFFF", "#9D9D9D", "#9D9D9D", "#9D9D9D"]),
  ("faunflux", ["#C1DEEB", "#29669C", "#97CEFF", "#FFFFFF", "#C6C2C2", "#5D5D5D", "#989898"]),
  ("bear brotherhood", ["#613704", "#613704", "#D46300", "#D46300", "#000000", "#FDDC62", "#FDDC62", "#FDE5B7", "#FDE5B7", "#FFFFFF", "#FFFFFF", "#545454", "#545454", "#000000", "#000000"]),
  ("hijra", ["#FECCE7", "#FECCE7", "#FECCE7", "#FFFFFF", "#C00100", "#FFFFFF", "#B9E1FB", "#B9E1FB", "#B9E1FB"]),
  ("trigender", ["#FF95C5", "#9581FF", "#67D966", "#9581FF", "#FF95C5"]),
  ("demiromantic", ["#56A644", "#56A644", "#A8D242", "#A8D242", "#000000", "#FDF979", "#FDF979", "#A9A8A8", "#A9A8A8"]),
  ("cupiosexual", ["#A0A0A0", "#C8BFE6", "#FFFFFF", "#FFB3DA"]),
  ("aliagender", ["#8DC73F", "#8BAD5A", "#899374", "#877A8E", "#8560A9", "#A4678C", "#C26E70", "#E07654", "#FF7D37"]),
  ("paragirl alt", ["#BCBCBC", "#BCBCBC", "#BCBCBC", "#BCBCBC", "#FFFFFF", "#FFFFFF", "#EED0F3", "#EED0F3", "#EED0F3", "#EED0F3", "#F32DEA", "#000000", "#F32DEA", "#EED0F3", "#EED0F3", "#EED0F3", "#EED0F3", "#FFFFFF", "#FFFFFF", "#BCBCBC", "#BCBCBC", "#BCBCBC", "#BCBCBC"]),
  ("genderfaun", ["#FCD689", "#FFF09B", "#FAF9CD", "#FFFFFF", "#8EDED9", "#8CACDE", "#9782EC"]),
  ("polygender", ["#000000", "#939393", "#ED94C5", "#F5ED81", "#64BBE6"]),
  ("biromantic alt", ["#D60270", "#D60270", "#D60270", "#D60270", "#D60270", "#D60270", "#D60270", "#FFFFFF", "#FFFFFF", "#FFFFFF", "#9B4F96", "#9B4F96", "#FFFFFF", "#000000", "#FFFFFF", "#9B4F96", "#9B4F96", "#FFFFFF", "#FFFFFF", "#FFFFFF", "#0038A8", "#0038A8", "#0038A8", "#0038A8", "#0038A8", "#0038A8", "#0038A8"])
  ]

/-- Lookup in the mapping denoted by a Python dict literal: later entries for
the same key overwrite earlier ones (last-write-wins), so a lookup finds the
last binding of the key. -/
def dictGet {α : Type} (entries : List (String × α)) (k : String) : Option α :=
  (entries.reverse.find? (fun e => e.1 == k)).map (fun e => e.2)

/-! ### The claims -/

/-- **C1**: for every palette of size `N ≥ 1` and every `length ≥ 0`, the
color sequence returned by `with_length` (the spec's `distribute`) has exactly
`length` elements, and for every weight vector of `N` non-negative integers,
`with_weights` (the spec's `expand`) returns a sequence whose length equals
the sum of the weights. -/
theorem distribute_expand_lengths (p : ColorProfile) (L : Nat) (w : List Nat)
    (hN : 1 ≤ p.colors.length) (hw : w.length = p.colors.length) :
    (p.with_length L).length = L ∧ (p.with_weights w).length = w.sum := by
  constructor
  · unfold ColorProfile.with_length
    rw [with_weights_length, lengthWeights_sum p L hN]
  · exact with_weights_length p w

theorem distribute_expand_lengths_witness :
    (1 ≤ sampleProfile3.colors.length ∧
        ([1, 2, 3] : List Nat).length = sampleProfile3.colors.length) ∧
      ((sampleProfile3.with_length 7).length = 7 ∧
        (sampleProfile3.with_weights [1, 2, 3]).length = ([1, 2, 3] : List Nat).sum) :=
  ⟨⟨by decide, by decide⟩,
    distribute_expand_lengths sampleProfile3 7 [1, 2, 3] (by decide) (by decide)⟩

/-- **C2**: for every palette of size `N ≥ 1` and every `length ≥ 0`,
`with_length` returns exactly the sequence described by the spec: every weight
starts at `length // N`; if `length mod N` is odd the weight at index `N // 2`
gains 1; with the remaining even remainder `e`, the weights at indices `i` and
`N - 1 - i` gain 1 for each `i` from `0` up to `e / 2 - 1`; finally
`colors[i]` is repeated `weights[i]` times, concatenated in palette order. -/
theorem with_length_matches_spec (p : ColorProfile) (L : Nat)
    (hN : 1 ≤ p.colors.length) :
    p.with_length L
      = expandSpec p.colors (distributeSpecWeights p.colors.length L) := by
  unfold ColorProfile.with_length
  rw [lengthWeights_eq_spec, with_weights_eq_expandSpec]

theorem with_length_matches_spec_witness :
    1 ≤ sampleProfile3.colors.length ∧
      sampleProfile3.with_length 10
        = expandSpec sampleProfile3.colors
            (distributeSpecWeights sampleProfile3.colors.length 10) :=
  ⟨by decide, with_length_matches_spec sampleProfile3 10 (by decide)⟩

/-- **C3 (counterexample)**: the weight vector computed inside `with_length`
is not always a palindrome.  For the 2-color palette and `length = 1`, the
odd leftover goes to index `N // 2 = 1` (right of center for even `N`), so
the weights are `[0, 1]` and `weights[0] ≠ weights[N - 1 - 0]`. -/
theorem lengthWeights_not_palindrome :
    (sampleProfile2.lengthWeights 1).getD 0 0 ≠
      (sampleProfile2.lengthWeights 1).getD
        (sampleProfile2.colors.length - 1 - 0) 0 := by
  decide

/-- **C3 (amended)**: for every palette of size `N ≥ 1` and every length such
that `N` is odd or `length mod N` is even, the weight vector computed inside
`with_length` is a palindrome: `weights[i] = weights[N - 1 - i]` for every
index `i`.  (When `N` is even and `length mod N` is odd, the single leftover
unit goes to index `N / 2`, whose mirror `N / 2 - 1` does not receive it, so
the vector is not a palindrome — see the counterexample.) -/
theorem lengthWeights_palindrome (p : ColorProfile) (L : Nat)
    (hN : 1 ≤ p.colors.length)
    (h : p.colors.length % 2 = 1 ∨ L % p.colors.length % 2 = 0) :
    ∀ i, i < p.colors.length →
      (p.lengthWeights L).getD i 0 =
        (p.lengthWeights L).getD (p.colors.length - 1 - i) 0 := by
  intro i hi
  have h1 := lengthWeights_getD p L hN i hi
  have h2 := lengthWeights_getD p L hN (p.colors.length - 1 - i) (by omega)
  have hm : L % p.colors.length < p.colors.length := Nat.mod_lt _ hN
  rw [h1, h2]
  split_ifs <;> omega

theorem lengthWeights_palindrome_witness :
    (1 ≤ sampleProfile3.colors.length ∧
        (sampleProfile3.colors.length % 2 = 1 ∨ 10 % sampleProfile3.colors.length % 2 = 0) ∧
        0 < sampleProfile3.colors.length) ∧
      (sampleProfile3.lengthWeights 10).getD 0 0 =
        (sampleProfile3.lengthWeights 10).getD (sampleProfile3.colors.length - 1 - 0) 0 :=
  ⟨⟨by decide, Or.inl (by decide), by decide⟩,
    lengthWeights_palindrome sampleProfile3 10 (by decide) (Or.inl (by decide)) 0 (by decide)⟩

/-- **C4**: `color_text` behaves exactly as the spec's colorizer: with
`spaceOnly` true, each non-space character is emitted without a color escape
prefix, preceded by the reset sequence exactly when `i > 0` and the previous
character is a space; each space character (and, with `spaceOnly` false,
every character) is prefixed by the escape sequence of the color at its index
in `distribute(len(text))`; a final reset sequence is appended. -/
theorem color_text_matches_spec (p : ColorProfile) (txt : String)
    (foreground space_only : Bool) (hN : 1 ≤ p.colors.length) :
    p.color_text txt foreground space_only
      = colorizeSpec p txt foreground space_only := by
  simp only [colorizeSpec]
  exact color_text_pieces p txt foreground space_only

theorem color_text_matches_spec_witness :
    1 ≤ sampleProfile2.colors.length ∧
      sampleProfile2.color_text "a b" true true
        = colorizeSpec sampleProfile2 "a b" true true :=
  ⟨by decide, color_text_matches_spec sampleProfile2 "a b" true true (by decide)⟩

/-- **C5**: for every palette of size `N ≥ 1` and every `length ≥ 0`, the
border-growth loop of `with_length` ends with `extras` exactly `0` (never
negative), and every left border index `j` it touches satisfies
`j ≤ N - 1 - j` (it never indexes past its mirror). -/
theorem lengthLoop_terminates_zero (p : ColorProfile) (L : Nat)
    (hN : 1 ≤ p.colors.length) :
    (p.lengthLoop L).1.2 = 0 ∧
      ∀ j ∈ (p.lengthLoop L).2, j ≤ p.colors.length - 1 - j := by
  have hm : L % p.colors.length < p.colors.length := Nat.mod_lt _ hN
  rw [lengthLoop_eq]
  have he : L % p.colors.length - L % p.colors.length % 2
      = 2 * ((L % p.colors.length - L % p.colors.length % 2) / 2) := by omega
  rw [he]
  constructor
  · exact borderLoop_extras_even _ _ _
  · intro j hj
    have hb := borderLoop_touched_mem _ _ _ _ hj
    omega

theorem lengthLoop_terminates_zero_witness :
    1 ≤ sampleProfile3.colors.length ∧
      ((sampleProfile3.lengthLoop 7).1.2 = 0 ∧
        ∀ j ∈ (sampleProfile3.lengthLoop 7).2,
          j ≤ sampleProfile3.colors.length - 1 - j) :=
  ⟨by decide, lengthLoop_terminates_zero sampleProfile3 7 (by decide)⟩

/-- **C6**: for every palette of size `N ≥ 1`, both foreground selectors and
both space-only flags, `color_text` on the empty string returns exactly the
reset sequence `"\x1b[0m"` and nothing else, and `with_length 0` returns the
empty color sequence; neither is an error. -/
theorem colorize_empty_and_distribute_zero (p : ColorProfile)
    (hN : 1 ≤ p.colors.length) :
    (∀ foreground space_only : Bool,
        p.color_text "" foreground space_only = resetSeq) ∧
      p.with_length 0 = [] := by
  constructor
  · intro fg so
    rfl
  · have h := with_weights_length p (p.lengthWeights 0)
    rw [lengthWeights_sum p 0 hN] at h
    unfold ColorProfile.with_length
    exact List.length_eq_zero.mp h

theorem colorize_empty_and_distribute_zero_witness :
    1 ≤ sampleProfile2.colors.length ∧
      (sampleProfile2.color_text "" true false = resetSeq ∧
        sampleProfile2.with_length 0 = []) :=
  ⟨by decide,
    (colorize_empty_and_distribute_zero sampleProfile2 (by decide)).1 true false,
    (colorize_empty_and_distribute_zero sampleProfile2 (by decide)).2⟩

/-- **C7**: constructing a palette from a sequence of zero colors fails at
construction time (in the source, `colors[0]` raises `IndexError` before
anything else runs; the spec names this rejection `EmptyPaletteError`), for
both the hex-string and the `RGB` overloads, and no `ColorProfile` with
`N = 0` is ever produced by construction, so `with_length` can never divide
by zero. -/
theorem init_empty_fails :
    ColorProfile.init (.inl []) = .error .indexError ∧
      ColorProfile.init (.inr []) = .error .indexError ∧
      ∀ input p, ColorProfile.init input = .ok p → 1 ≤ p.colors.length := by
  refine ⟨rfl, rfl, ?_⟩
  intro input p h
  match input with
  | .inl [] => exact absurd h (by simp [ColorProfile.init])
  | .inr [] => exact absurd h (by simp [ColorProfile.init])
  | .inr (c :: rest) =>
      rw [show ColorProfile.init (.inr (c :: rest))
          = .ok { colors := c :: rest } from rfl] at h
      cases h
      simp
  | .inl (c :: rest) =>
      rw [show ColorProfile.init (.inl (c :: rest))
          = (match fromHexList (c :: rest) with
             | .error e => .error e
             | .ok colors => .ok { raw := c :: rest, colors := colors }) from rfl] at h
      cases hfl : fromHexList (c :: rest) with
      | error e => rw [hfl] at h; cases h
      | ok cs =>
          rw [hfl] at h
          cases h
          cases hc : RGB.from_hex c with
          | error e => rw [fromHexList, hc] at hfl; cases hfl
          | ok v =>
              cases hr : fromHexList rest with
              | error e => rw [fromHexList, hc, hr] at hfl; cases hfl
              | ok vs =>
                  rw [fromHexList, hc, hr] at hfl
                  cases hfl
                  simp

theorem init_empty_fails_witness :
    ColorProfile.init (.inl ["#FF0000"])
        = .ok { raw := ["#FF0000"], colors := [⟨255, 0, 0⟩] } ∧
      1 ≤ ({ raw := ["#FF0000"], colors := [⟨255, 0, 0⟩] } : ColorProfile).colors.length :=
  ⟨rfl, init_empty_fails.2.2 (.inl ["#FF0000"])
      { raw := ["#FF0000"], colors := [⟨255, 0, 0⟩] } rfl⟩

/-- **C8**: the `PRESETS` dict literal contains exactly one duplicated key,
the name `'biromantic alt 2'` (it occurs twice, every other name once), and
the constructed dict binds that name to the later of the two entries, the
palette `['#740194', '#AEB1AA', '#FFFFFF', '#AEB1AA', '#740194']`
(last-write-wins). -/
theorem presets_duplicate_key :
    ((PRESETS_entries.map Prod.fst).filter
        (fun k => 2 ≤ (PRESETS_entries.map Prod.fst).count k))
      = ["biromantic alt 2", "biromantic alt 2"] ∧
      dictGet PRESETS_entries "biromantic alt 2"
        = some ["#740194", "#AEB1AA", "#FFFFFF", "#AEB1AA", "#740194"] := by
  constructor
  · decide
  · decide

/-- **C9**: for every palette of size `N ≥ 1` and every `length ≥ 0`, every
weight produced inside `with_length` equals `length // N` or
`length // N + 1`: no index is ever incremented twice over the base repeats
(the center-touched-twice scenario is unreachable since `extras < N`). -/
theorem lengthWeights_values (p : ColorProfile) (L : Nat)
    (hN : 1 ≤ p.colors.length) :
    ∀ i, i < p.colors.length →
      (p.lengthWeights L).getD i 0 = L / p.colors.length ∨
        (p.lengthWeights L).getD i 0 = L / p.colors.length + 1 := by
  intro i hi
  have h1 := lengthWeights_getD p L hN i hi
  have hm : L % p.colors.length < p.colors.length := Nat.mod_lt _ hN
  rw [h1]
  split_ifs <;> omega

theorem lengthWeights_values_witness :
    (1 ≤ sampleProfile3.colors.length ∧ 1 < sampleProfile3.colors.length) ∧
      ((sampleProfile3.lengthWeights 10).getD 1 0 = 10 / sampleProfile3.colors.length ∨
        (sampleProfile3.lengthWeights 10).getD 1 0
          = 10 / sampleProfile3.colors.length + 1) :=
  ⟨⟨by decide, by decide⟩,
    lengthWeights_values sampleProfile3 10 (by decide) 1 (by decide)⟩

/-- **C10**: in space-only mode only the ASCII space `' '` counts as a space:
for every palette, every text and both foreground selectors, `color_text`
with `space_only = true` gives a color escape prefix to a character exactly
when it is `' '`; every other character — tab, newline, any other whitespace
included — is emitted without a color escape, preceded by the reset sequence
exactly when the previous character is `' '`. -/
theorem color_text_space_only_exact (p : ColorProfile) (txt : String)
    (foreground : Bool) :
    p.color_text txt foreground true =
      String.join ((List.range txt.data.length).map (fun i =>
        if txt.data.getD i ' ' = ' ' then
          ((p.with_length txt.length).getD i ⟨0, 0, 0⟩).to_ansi_rgb foreground ++ " "
        else
          (if 0 < i ∧ txt.data.getD (i - 1) ' ' = ' ' then resetSeq else "") ++
            (txt.data.getD i ' ').toString)) ++ resetSeq := by
  rw [color_text_pieces]
  congr 1
  congr 1
  apply List.map_congr_left
  intro i _
  by_cases ht : txt.data.getD i ' ' = ' '
  · rw [if_neg (fun hcon => hcon.2 ht), if_pos ht, ht]
    exact congrArg _ (by decide)
  · rw [if_pos ⟨rfl, ht⟩, if_neg ht]
